import Mathlib

/-!
Verification of the Galaxy Ascendancy planet-economy core.

Shallow embedding of `server/gameLogic.ts` and the
`POST /api/buildings/upgrade` handler of `server/routes.ts`, together with
the storage semantics of `server/storage.ts` (planets, buildings,
construction queue modelled as explicit state).  JavaScript numbers are
modelled as rationals (`ℚ`), `Math.floor` as `Int.floor`, timestamps as
rational milliseconds since the epoch.
-/

namespace Galaxy

/-- Catalog entry, mirroring the `BuildingDefinition` interface of
`server/gameLogic.ts`. -/
structure BuildingDefinition where
  id : String
  name : String
  layer : String
  baseProductionRate : ℚ
  resourceType : Option String
  baseCostMetal : ℚ
  baseCostCrystal : ℚ
  baseCostOxygen : ℚ
  baseConstructionTime : ℚ
  energyConsumption : ℚ
  deriving DecidableEq, Repr

def metalMineDef : BuildingDefinition :=
  ⟨"metal_mine", "Metal Mine", "surface", 30, some "metal", 60, 15, 0, 60, 10⟩

def crystalRefineryDef : BuildingDefinition :=
  ⟨"crystal_refinery", "Crystal Refinery", "surface", 20, some "crystal", 48, 24, 0, 90, 15⟩

def oxygenProcessorDef : BuildingDefinition :=
  ⟨"oxygen_processor", "Oxygen Processor", "surface", 15, some "oxygen", 225, 75, 0, 120, 20⟩

def energyPlantDef : BuildingDefinition :=
  ⟨"energy_plant", "Energy Plant", "core", 50, some "energy", 75, 30, 0, 45, 0⟩

def fleetDockDef : BuildingDefinition :=
  ⟨"fleet_dock", "Fleet Dock", "orbit", 0, none, 400, 200, 100, 300, 30⟩

def researchLabDef : BuildingDefinition :=
  ⟨"research_lab", "Research Lab", "surface", 0, none, 200, 400, 200, 240, 25⟩

def commandCenterDef : BuildingDefinition :=
  ⟨"command_center", "Command Center", "surface", 0, none, 100, 50, 50, 120, 15⟩

def shipyardDef : BuildingDefinition :=
  ⟨"shipyard", "Shipyard", "orbit", 0, none, 500, 300, 150, 360, 40⟩

def defensePlatformDef : BuildingDefinition :=
  ⟨"defense_platform", "Defense Platform", "orbit", 0, none, 300, 150, 100, 180, 25⟩

def tradeHubDef : BuildingDefinition :=
  ⟨"trade_hub", "Trade Hub", "orbit", 0, none, 250, 200, 100, 200, 20⟩

/-- `BUILDING_DEFINITIONS[buildingType]` lookup of `server/gameLogic.ts`
(`getBuildingDefinition`): `undefined` becomes `none`. -/
def getBuildingDefinition (buildingType : String) : Option BuildingDefinition :=
  if buildingType = "metal_mine" then some metalMineDef
  else if buildingType = "crystal_refinery" then some crystalRefineryDef
  else if buildingType = "oxygen_processor" then some oxygenProcessorDef
  else if buildingType = "energy_plant" then some energyPlantDef
  else if buildingType = "fleet_dock" then some fleetDockDef
  else if buildingType = "research_lab" then some researchLabDef
  else if buildingType = "command_center" then some commandCenterDef
  else if buildingType = "shipyard" then some shipyardDef
  else if buildingType = "defense_platform" then some defensePlatformDef
  else if buildingType = "trade_hub" then some tradeHubDef
  else none

/-- Result record of `calculateUpgradeCost`. -/
structure UpgradeCost where
  metal : ℤ
  crystal : ℤ
  oxygen : ℤ
  deriving DecidableEq, Repr

/-- `calculateUpgradeCost` of `server/gameLogic.ts`:
`Math.floor(baseCost.X * 1.5^(level-1))` per resource, `{0,0,0}` for an
unknown type.  Every call site passes `level = currentLevel + 1 ≥ 1`, so the
natural-number subtraction `level - 1` agrees with the source. -/
def calculateUpgradeCost (buildingType : String) (level : ℕ) : UpgradeCost :=
  match getBuildingDefinition buildingType with
  | none => ⟨0, 0, 0⟩
  | some b =>
    let multiplier : ℚ := (3 / 2) ^ (level - 1)
    ⟨⌊b.baseCostMetal * multiplier⌋, ⌊b.baseCostCrystal * multiplier⌋,
      ⌊b.baseCostOxygen * multiplier⌋⟩

/-- `calculateProductionRate` of `server/gameLogic.ts`:
`0` for an unknown type or zero base rate, otherwise
`Math.floor(base * level * 1.1^(level-1))`. -/
def calculateProductionRate (buildingType : String) (level : ℕ) : ℤ :=
  match getBuildingDefinition buildingType with
  | none => 0
  | some b =>
    if b.baseProductionRate = 0 then 0
    else ⌊b.baseProductionRate * level * (11 / 10 : ℚ) ^ (level - 1)⌋

/-- `calculateConstructionTime` of `server/gameLogic.ts`:
`60` for an unknown type, otherwise
`Math.floor(baseConstructionTime * 1.2^(level-1))` seconds. -/
def calculateConstructionTime (buildingType : String) (level : ℕ) : ℤ :=
  match getBuildingDefinition buildingType with
  | none => 60
  | some b => ⌊b.baseConstructionTime * (6 / 5 : ℚ) ^ (level - 1)⌋

/-- `calculateEnergyConsumption` of `server/gameLogic.ts`:
`0` for an unknown type, otherwise `Math.floor(base * level)`. -/
def calculateEnergyConsumption (buildingType : String) (level : ℕ) : ℤ :=
  match getBuildingDefinition buildingType with
  | none => 0
  | some b => ⌊b.energyConsumption * level⌋

/-- A `buildings` table row (`shared/schema.ts`): ids are modelled as
natural numbers, a single planet is implicit. -/
structure Building where
  id : ℕ
  buildingType : String
  slotIndex : ℕ
  level : ℕ
  isConstructing : Bool
  deriving DecidableEq, Repr

/-- Per-resource accumulator of the loop inside `calculateResourceRates`. -/
structure RateAccum where
  metal : ℤ
  crystal : ℤ
  oxygen : ℤ
  energy : ℤ
  cons : ℤ
  deriving DecidableEq, Repr

/-- The `switch (def.resourceType)` statement: adds `production` to the
bucket named by `resourceType`; `null` and unknown strings fall through. -/
def addProduction (a : RateAccum) (resourceType : Option String) (production : ℤ) : RateAccum :=
  match resourceType with
  | none => a
  | some s =>
    if s = "metal" then { a with metal := a.metal + production }
    else if s = "crystal" then { a with crystal := a.crystal + production }
    else if s = "oxygen" then { a with oxygen := a.oxygen + production }
    else if s = "energy" then { a with energy := a.energy + production }
    else a

/-- One iteration of the `for (const building of buildings)` loop in
`calculateResourceRates`: constructing buildings and unknown types are
skipped; otherwise production and energy consumption are accumulated. -/
def stepAccum (a : RateAccum) (b : Building) : RateAccum :=
  if b.isConstructing then a
  else
    match getBuildingDefinition b.buildingType with
    | none => a
    | some d =>
      let production := calculateProductionRate b.buildingType b.level
      let e := calculateEnergyConsumption b.buildingType b.level
      let a' := addProduction a d.resourceType production
      { a' with cons := a'.cons + e }

/-- The accumulation phase of `calculateResourceRates`, starting from the
baseline rates 20/10/5 and zero energy production/consumption. -/
def ratesAccum (buildings : List Building) : RateAccum :=
  buildings.foldl stepAccum ⟨20, 10, 5, 0, 0⟩

/-- Return record of `calculateResourceRates`. -/
structure ResourceRates where
  metalRate : ℤ
  crystalRate : ℤ
  oxygenRate : ℤ
  energyProduction : ℤ
  energyConsumption : ℤ
  energyEfficiency : ℚ
  effectiveMetalRate : ℤ
  effectiveCrystalRate : ℤ
  effectiveOxygenRate : ℤ
  deriving DecidableEq, Repr

/-- `calculateResourceRates` of `server/gameLogic.ts`, as a pure function of
the planet's building rows. -/
def calculateResourceRates (buildings : List Building) : ResourceRates :=
  let a := ratesAccum buildings
  let energyEfficiency : ℚ :=
    if 0 < a.cons then min 1 ((a.energy : ℚ) / (a.cons : ℚ)) else 1
  { metalRate := a.metal
    crystalRate := a.crystal
    oxygenRate := a.oxygen
    energyProduction := a.energy
    energyConsumption := a.cons
    energyEfficiency := energyEfficiency
    effectiveMetalRate := ⌊(a.metal : ℚ) * energyEfficiency⌋
    effectiveCrystalRate := ⌊(a.crystal : ℚ) * energyEfficiency⌋
    effectiveOxygenRate := ⌊(a.oxygen : ℚ) * energyEfficiency⌋ }

/-- A `planets` table row: the three stockpiles, the energy snapshot pair
and the accrual timestamp (milliseconds, as produced by `getTime()`). -/
structure Planet where
  metal : ℚ
  crystal : ℚ
  oxygen : ℚ
  energy : ℚ
  energyCapacity : ℚ
  lastResourceUpdate : ℚ
  deriving DecidableEq, Repr

/-- `updatePlanetResources` of `server/gameLogic.ts`: accrues resources for
the elapsed time, debounced below 0.001 hours, and stores the energy
production/consumption snapshot.  The implicit `new Date()` is the `now`
argument. -/
def updatePlanetResources (p : Planet) (buildings : List Building) (now : ℚ) : Planet :=
  let hoursPassed : ℚ := (now - p.lastResourceUpdate) / (1000 * 60 * 60)
  if hoursPassed < 1 / 1000 then p
  else
    let rates := calculateResourceRates buildings
    { metal := p.metal + (rates.effectiveMetalRate : ℚ) * hoursPassed
      crystal := p.crystal + (rates.effectiveCrystalRate : ℚ) * hoursPassed
      oxygen := p.oxygen + (rates.effectiveOxygenRate : ℚ) * hoursPassed
      energy := (rates.energyProduction : ℚ)
      energyCapacity := (rates.energyConsumption : ℚ)
      lastResourceUpdate := now }

/-- A `construction_queue` table row (`shared/schema.ts`). -/
structure Construction where
  id : ℕ
  buildingId : Option ℕ
  buildingType : String
  targetLevel : ℕ
  completesAt : ℚ
  position : ℕ
  deriving DecidableEq, Repr

/-- The whole persisted state touched by the economy core: the demo
planet's row, its building rows, its construction queue, and counters
standing in for the database's fresh-id generation. -/
structure GameState where
  planet : Planet
  buildings : List Building
  queue : List Construction
  nextBuildingId : ℕ
  nextQueueId : ℕ
  deriving DecidableEq, Repr

/-- `storage.updateBuilding(bid, { level, isConstructing: false })`:
updates the row whose id matches. -/
def applyBuildingUpdate (bs : List Building) (bid : ℕ) (lvl : ℕ) : List Building :=
  bs.map fun b => if b.id = bid then { b with level := lvl, isConstructing := false } else b

/-- The body of the `for (const construction of completed)` loop in
`processCompletedConstructions`: apply the target level (or create the
building when `buildingId` is null — schema defaults give
`slotIndex = 0`, `isConstructing = false`), then delete the queue row. -/
def applyConstruction (st : GameState) (c : Construction) : GameState :=
  let st' :=
    match c.buildingId with
    | some bid => { st with buildings := applyBuildingUpdate st.buildings bid c.targetLevel }
    | none =>
      { st with
        buildings :=
          st.buildings ++ [(⟨st.nextBuildingId, c.buildingType, 0, c.targetLevel, false⟩ : Building)]
        nextBuildingId := st.nextBuildingId + 1 }
  { st' with queue := st'.queue.filter fun q => q.id ≠ c.id }

/-- `storage.getCompletedConstructions()`: the queue rows with
`completesAt <= now`. -/
def dueList (st : GameState) (now : ℚ) : List Construction :=
  st.queue.filter fun c => c.completesAt ≤ now

/-- `processCompletedConstructions` of `server/gameLogic.ts`, restricted to
the building-construction queue (the ship-build loop of the same function
has the same shape over a disjoint table and is not involved in the
claims' state). -/
def processCompletedConstructions (st : GameState) (now : ℚ) : GameState :=
  (dueList st now).foldl applyConstruction st

/-- `existingBuilding?.level || 0` over
`storage.getBuildingByType(planetId, buildingType)` (first matching row). -/
def currentLevelOf (bs : List Building) (buildingType : String) : ℕ :=
  match bs.find? (fun b => b.buildingType = buildingType) with
  | some b => b.level
  | none => 0

/-- Error outcomes of the `POST /api/buildings/upgrade` handler. -/
inductive UpgradeError where
  | invalidBuildingType
  | insufficientResources
  deriving DecidableEq, Repr

/-- The `POST /api/buildings/upgrade` handler of `server/routes.ts`
(`buildingType` present, demo user and planet resolved): catalog check,
accrual, affordability check against the freshly accrued balances, debit,
create-or-flag the building row, enqueue.  The returned state records
everything the handler persisted on that path — in particular the accrual
performed by `updatePlanetResources` persists even when the affordability
check then fails. -/
def upgradeBuilding (s : GameState) (buildingType : String) (now : ℚ) :
    Except UpgradeError Construction × GameState :=
  match getBuildingDefinition buildingType with
  | none => (.error .invalidBuildingType, s)
  | some _ =>
    let p := updatePlanetResources s.planet s.buildings now
    let existing := s.buildings.find? (fun b => b.buildingType = buildingType)
    let targetLevel := currentLevelOf s.buildings buildingType + 1
    let cost := calculateUpgradeCost buildingType targetLevel
    if p.metal < (cost.metal : ℚ) ∨ p.crystal < (cost.crystal : ℚ) ∨
        p.oxygen < (cost.oxygen : ℚ) then
      (.error .insufficientResources, { s with planet := p })
    else
      let p2 := { p with
        metal := p.metal - (cost.metal : ℚ)
        crystal := p.crystal - (cost.crystal : ℚ)
        oxygen := p.oxygen - (cost.oxygen : ℚ) }
      let ctime := calculateConstructionTime buildingType targetLevel
      let completesAt := now + (ctime : ℚ) * 1000
      let position := s.queue.length
      let newB : Building := ⟨s.nextBuildingId, buildingType, 0, 0, false⟩
      let bld : Building × List Building × ℕ :=
        match existing with
        | some b => (b, s.buildings, s.nextBuildingId)
        | none => (newB, s.buildings ++ [newB], s.nextBuildingId + 1)
      let buildings2 := bld.2.1.map fun b =>
        if b.id = bld.1.id then { b with isConstructing := true } else b
      let item : Construction :=
        ⟨s.nextQueueId, some bld.1.id, buildingType, targetLevel, completesAt, position⟩
      (.ok item,
        { planet := p2
          buildings := buildings2
          queue := s.queue ++ [item]
          nextBuildingId := bld.2.2
          nextQueueId := s.nextQueueId + 1 })

/-- The operations a request sequence can apply to the persisted state:
a bare accrual (`GET /api/player/resources`), an upgrade request
(`POST /api/buildings/upgrade`), and the periodic resolver tick. -/
inductive Op where
  | accrue : ℚ → Op
  | upgrade : String → ℚ → Op
  | resolve : ℚ → Op
  deriving DecidableEq, Repr

/-- One operation applied to the state. -/
def stepOp (s : GameState) : Op → GameState
  | .accrue now => { s with planet := updatePlanetResources s.planet s.buildings now }
  | .upgrade t now => (upgradeBuilding s t now).2
  | .resolve now => processCompletedConstructions s now

/-- A whole request sequence applied to the state. -/
def runOps (s : GameState) (ops : List Op) : GameState :=
  ops.foldl stepOp s

/-- Non-negative resource balances. -/
def PlanetNonneg (p : Planet) : Prop :=
  0 ≤ p.metal ∧ 0 ≤ p.crystal ∧ 0 ≤ p.oxygen

/-- All accumulator components non-negative. -/
def AccumNonneg (a : RateAccum) : Prop :=
  0 ≤ a.metal ∧ 0 ≤ a.crystal ∧ 0 ≤ a.oxygen ∧ 0 ≤ a.energy ∧ 0 ≤ a.cons

/-- The spec's wording of the upgrade-cost formula (§4.2), stated on a
definition directly, for comparison with the source's
`calculateUpgradeCost`. -/
def upgradeCostSpec (d : BuildingDefinition) (level : ℕ) : UpgradeCost :=
  ⟨⌊d.baseCostMetal * (3 / 2 : ℚ) ^ (level - 1)⌋,
    ⌊d.baseCostCrystal * (3 / 2 : ℚ) ^ (level - 1)⌋,
    ⌊d.baseCostOxygen * (3 / 2 : ℚ) ^ (level - 1)⌋⟩

/-- The spec's wording of the production-rate formula (§4.2), stated on a
definition directly, for comparison with the source's
`calculateProductionRate`. -/
def productionRateSpec (d : BuildingDefinition) (level : ℕ) : ℤ :=
  if d.baseProductionRate = 0 then 0
  else ⌊d.baseProductionRate * level * (11 / 10 : ℚ) ^ (level - 1)⌋

/-- A fully built demo planet state used by concrete witnesses: an energy
plant producing 50 next to consumers drawing 70. -/
def demoBuildings : List Building :=
  [⟨0, "energy_plant", 0, 1, false⟩, ⟨1, "metal_mine", 0, 2, false⟩,
    ⟨2, "crystal_refinery", 0, 2, false⟩, ⟨3, "oxygen_processor", 0, 1, false⟩]

/-- A planet row used by concrete witnesses. -/
def demoPlanet : Planet :=
  ⟨500, 300, 200, 0, 100, 7200000⟩

/-- A drained state: every balance zero, nothing built, nothing queued. -/
def poorState : GameState :=
  ⟨⟨0, 0, 0, 0, 100, 0⟩, [], [], 0, 0⟩

/-- A state whose metal mine is mid-construction: `isConstructing = true`
and one outstanding queue entry targeting level 2, with ample balances. -/
def busyState : GameState :=
  ⟨⟨10000, 10000, 10000, 0, 100, 0⟩, [⟨0, "metal_mine", 0, 1, true⟩],
    [⟨0, some 0, "metal_mine", 2, 60000, 0⟩], 1, 1⟩

/-- A state with two due queue entries (one referencing the metal mine,
one creating a fleet dock) and one entry that is not yet due. -/
def resolveState : GameState :=
  ⟨⟨100, 100, 100, 0, 100, 0⟩, [⟨0, "metal_mine", 0, 1, true⟩],
    [⟨0, some 0, "metal_mine", 2, 60000, 0⟩, ⟨1, none, "fleet_dock", 1, 50000, 1⟩,
      ⟨2, none, "research_lab", 3, 900000000, 2⟩], 1, 3⟩

/-- The building row the handler targets: the existing row for the type,
or the fresh level-0 row it creates. -/
def upgradeTarget (s : GameState) (t : String) : Building :=
  match s.buildings.find? (fun b => b.buildingType = t) with
  | some b => b
  | none => ⟨s.nextBuildingId, t, 0, 0, false⟩

/-- The queue entry a successful upgrade request appends. -/
def upgradeItem (s : GameState) (t : String) (now : ℚ) : Construction :=
  ⟨s.nextQueueId, some (upgradeTarget s t).id, t, currentLevelOf s.buildings t + 1,
    now + (calculateConstructionTime t (currentLevelOf s.buildings t + 1) : ℚ) * 1000,
    s.queue.length⟩

/-- The planet after accrual and the debit of the upgrade cost. -/
def debitedPlanet (s : GameState) (t : String) (now : ℚ) : Planet :=
  let p := updatePlanetResources s.planet s.buildings now
  let cost := calculateUpgradeCost t (currentLevelOf s.buildings t + 1)
  { p with
    metal := p.metal - (cost.metal : ℚ)
    crystal := p.crystal - (cost.crystal : ℚ)
    oxygen := p.oxygen - (cost.oxygen : ℚ) }

/-- The state a successful upgrade request leaves behind. -/
def upgradeResultState (s : GameState) (t : String) (now : ℚ) : GameState :=
  let base : List Building :=
    match s.buildings.find? (fun b => b.buildingType = t) with
    | some _ => s.buildings
    | none => s.buildings ++ [upgradeTarget s t]
  { planet := debitedPlanet s t now
    buildings := base.map fun b =>
      if b.id = (upgradeTarget s t).id then { b with isConstructing := true } else b
    queue := s.queue ++ [upgradeItem s t now]
    nextBuildingId :=
      match s.buildings.find? (fun b => b.buildingType = t) with
      | some _ => s.nextBuildingId
      | none => s.nextBuildingId + 1
    nextQueueId := s.nextQueueId + 1 }

/-- The (metal, crystal, oxygen) amounts an operation debits: the upgrade
cost when the request succeeds, zero otherwise. -/
def opSpend (s : GameState) : Op → ℚ × ℚ × ℚ
  | .upgrade t now =>
    match (upgradeBuilding s t now).1 with
    | .ok _ =>
      (((calculateUpgradeCost t (currentLevelOf s.buildings t + 1)).metal : ℚ),
        ((calculateUpgradeCost t (currentLevelOf s.buildings t + 1)).crystal : ℚ),
        ((calculateUpgradeCost t (currentLevelOf s.buildings t + 1)).oxygen : ℚ))
    | .error _ => (0, 0, 0)
  | _ => (0, 0, 0)

/-- Total (metal, crystal, oxygen) debited across a request sequence. -/
def totalSpend : GameState → List Op → ℚ × ℚ × ℚ
  | _, [] => (0, 0, 0)
  | s, op :: rest =>
    let x := opSpend s op
    let y := totalSpend (stepOp s op) rest
    (x.1 + y.1, x.2.1 + y.2.1, x.2.2 + y.2.2)

/-- An operation that performs no accrual relative to a planet whose
`lastResourceUpdate` is `u`: bare accruals are excluded and every other
operation's clock makes the handler's internal accrual a debounced
no-op. -/
def opNoAccrual (u : ℚ) : Op → Prop
  | .accrue _ => False
  | .upgrade _ now => (now - u) / (1000 * 60 * 60) < 1 / 1000
  | .resolve _ => True

/-- A well-funded empty state and a short accrual-free request sequence. -/
def richState : GameState :=
  ⟨⟨1000, 1000, 1000, 0, 100, 0⟩, [], [], 0, 0⟩

/-- An upgrade request at the stored clock instant followed by a resolver
tick: no accrual happens anywhere in the sequence. -/
def demoOps : List Op :=
  [.upgrade "metal_mine" 0, .resolve 100000]

lemma getBuildingDefinition_nonneg {t : String} {d : BuildingDefinition}
    (h : getBuildingDefinition t = some d) :
    0 ≤ d.baseProductionRate ∧ 0 ≤ d.energyConsumption ∧ 0 ≤ d.baseCostMetal ∧
      0 ≤ d.baseCostCrystal ∧ 0 ≤ d.baseCostOxygen ∧ 0 ≤ d.baseConstructionTime := by
  unfold getBuildingDefinition at h
  split_ifs at h <;> cases h <;>
    norm_num [metalMineDef, crystalRefineryDef, oxygenProcessorDef, energyPlantDef,
      fleetDockDef, researchLabDef, commandCenterDef, shipyardDef, defensePlatformDef,
      tradeHubDef]

lemma calculateProductionRate_nonneg (t : String) (l : ℕ) :
    0 ≤ calculateProductionRate t l := by
  unfold calculateProductionRate
  cases hd : getBuildingDefinition t with
  | none => exact le_refl 0
  | some d =>
    simp only
    split
    · exact le_refl 0
    · refine Int.le_floor.mpr ?_
      push_cast
      have hb := (getBuildingDefinition_nonneg hd).1
      have : (0:ℚ) ≤ (11/10 : ℚ) ^ (l - 1) := by positivity
      have hl : (0:ℚ) ≤ (l : ℚ) := Nat.cast_nonneg l
      exact mul_nonneg (mul_nonneg hb hl) this

lemma calculateEnergyConsumption_nonneg (t : String) (l : ℕ) :
    0 ≤ calculateEnergyConsumption t l := by
  unfold calculateEnergyConsumption
  cases hd : getBuildingDefinition t with
  | none => exact le_refl 0
  | some d =>
    refine Int.le_floor.mpr ?_
    push_cast
    have hb := (getBuildingDefinition_nonneg hd).2.1
    have hl : (0:ℚ) ≤ (l : ℚ) := Nat.cast_nonneg l
    nlinarith

lemma addProduction_nonneg {a : RateAccum} {rt : Option String} {production : ℤ}
    (ha : AccumNonneg a) (hp : 0 ≤ production) :
    AccumNonneg (addProduction a rt production) := by
  obtain ⟨h1, h2, h3, h4, h5⟩ := ha
  unfold addProduction
  cases rt with
  | none => exact ⟨h1, h2, h3, h4, h5⟩
  | some s =>
    simp only
    split_ifs <;> refine ⟨?_, ?_, ?_, ?_, ?_⟩ <;> dsimp <;> linarith

lemma stepAccum_nonneg {a : RateAccum} (b : Building) (ha : AccumNonneg a) :
    AccumNonneg (stepAccum a b) := by
  unfold stepAccum
  split
  · exact ha
  · cases hd : getBuildingDefinition b.buildingType with
    | none => exact ha
    | some d =>
      simp only
      have h1 := @addProduction_nonneg a d.resourceType
        (calculateProductionRate b.buildingType b.level) ha
        (calculateProductionRate_nonneg b.buildingType b.level)
      have h2 := calculateEnergyConsumption_nonneg b.buildingType b.level
      obtain ⟨g1, g2, g3, g4, g5⟩ := h1
      exact ⟨g1, g2, g3, g4, by dsimp; linarith⟩

lemma foldl_stepAccum_nonneg (bs : List Building) :
    ∀ a : RateAccum, AccumNonneg a → AccumNonneg (bs.foldl stepAccum a) := by
  induction bs with
  | nil => intro a ha; exact ha
  | cons b bs ih =>
    intro a ha
    exact ih _ (stepAccum_nonneg b ha)

lemma ratesAccum_nonneg (bs : List Building) : AccumNonneg (ratesAccum bs) :=
  foldl_stepAccum_nonneg bs _ (by constructor <;> norm_num)

lemma energyEfficiency_bounds (bs : List Building) :
    0 ≤ (calculateResourceRates bs).energyEfficiency ∧
      (calculateResourceRates bs).energyEfficiency ≤ 1 := by
  have ha := ratesAccum_nonneg bs
  obtain ⟨-, -, -, h4, h5⟩ := ha
  unfold calculateResourceRates
  simp only
  split_ifs with hc
  · constructor
    · refine le_min ?_ ?_
      · norm_num
      · apply div_nonneg <;> [exact_mod_cast h4; exact_mod_cast h5]
    · exact min_le_left _ _
  · norm_num

lemma effectiveMetalRate_eq (bs : List Building) :
    (calculateResourceRates bs).effectiveMetalRate =
      ⌊((calculateResourceRates bs).metalRate : ℚ) *
        (calculateResourceRates bs).energyEfficiency⌋ := rfl

lemma effectiveCrystalRate_eq (bs : List Building) :
    (calculateResourceRates bs).effectiveCrystalRate =
      ⌊((calculateResourceRates bs).crystalRate : ℚ) *
        (calculateResourceRates bs).energyEfficiency⌋ := rfl

lemma effectiveOxygenRate_eq (bs : List Building) :
    (calculateResourceRates bs).effectiveOxygenRate =
      ⌊((calculateResourceRates bs).oxygenRate : ℚ) *
        (calculateResourceRates bs).energyEfficiency⌋ := rfl

lemma rates_eq_accum (bs : List Building) :
    (calculateResourceRates bs).metalRate = (ratesAccum bs).metal ∧
      (calculateResourceRates bs).crystalRate = (ratesAccum bs).crystal ∧
      (calculateResourceRates bs).oxygenRate = (ratesAccum bs).oxygen ∧
      (calculateResourceRates bs).energyProduction = (ratesAccum bs).energy ∧
      (calculateResourceRates bs).energyConsumption = (ratesAccum bs).cons :=
  ⟨rfl, rfl, rfl, rfl, rfl⟩

lemma effectiveRates_nonneg (bs : List Building) :
    0 ≤ (calculateResourceRates bs).effectiveMetalRate ∧
      0 ≤ (calculateResourceRates bs).effectiveCrystalRate ∧
      0 ≤ (calculateResourceRates bs).effectiveOxygenRate := by
  obtain ⟨h1, h2, h3, -, -⟩ := ratesAccum_nonneg bs
  have he := (energyEfficiency_bounds bs).1
  refine ⟨?_, ?_, ?_⟩
  · rw [effectiveMetalRate_eq]
    refine Int.le_floor.mpr ?_
    push_cast
    refine mul_nonneg ?_ he
    rw [(rates_eq_accum bs).1]
    exact_mod_cast h1
  · rw [effectiveCrystalRate_eq]
    refine Int.le_floor.mpr ?_
    push_cast
    refine mul_nonneg ?_ he
    rw [(rates_eq_accum bs).2.1]
    exact_mod_cast h2
  · rw [effectiveOxygenRate_eq]
    refine Int.le_floor.mpr ?_
    push_cast
    refine mul_nonneg ?_ he
    rw [(rates_eq_accum bs).2.2.1]
    exact_mod_cast h3

/-- Claim C7: for every catalogued building definition and every target
level ≥ 1, `calculateUpgradeCost` equals the spec's
`floor(baseCost.X * 1.5^(level-1))` for each of the three resources, and a
definition with `baseCost.metal = 60` (the metal mine) costs exactly 135
metal at level 3. -/
theorem calculateUpgradeCost_follows_spec :
    (∀ (t : String) (d : BuildingDefinition) (level : ℕ),
        getBuildingDefinition t = some d → 1 ≤ level →
          calculateUpgradeCost t level = upgradeCostSpec d level) ∧
      (calculateUpgradeCost "metal_mine" 3).metal = 135 ∧
      metalMineDef.baseCostMetal = 60 := by
  refine ⟨?_, ?_, by norm_num [metalMineDef]⟩
  · intro t d level h _
    unfold calculateUpgradeCost upgradeCostSpec
    rw [h]
  · norm_num [calculateUpgradeCost, getBuildingDefinition, metalMineDef]

/-- Witness for C7: the metal mine at target level 3. -/
theorem calculateUpgradeCost_follows_spec_witness :
    getBuildingDefinition "metal_mine" = some metalMineDef ∧ (1 : ℕ) ≤ 3 ∧
      calculateUpgradeCost "metal_mine" 3 = upgradeCostSpec metalMineDef 3 :=
  ⟨rfl, by norm_num,
    calculateUpgradeCost_follows_spec.1 "metal_mine" metalMineDef 3 rfl (by norm_num)⟩

/-- Claim C8: for every catalogued building definition and every level ≥ 1,
`calculateProductionRate` is 0 when the base rate is 0 and
`floor(base * level * 1.1^(level-1))` otherwise, and a base rate of 30 (the
metal mine) yields exactly 66 at level 2. -/
theorem calculateProductionRate_follows_spec :
    (∀ (t : String) (d : BuildingDefinition) (level : ℕ),
        getBuildingDefinition t = some d → 1 ≤ level →
          calculateProductionRate t level = productionRateSpec d level) ∧
      calculateProductionRate "metal_mine" 2 = 66 ∧
      metalMineDef.baseProductionRate = 30 := by
  refine ⟨?_, ?_, by norm_num [metalMineDef]⟩
  · intro t d level h _
    unfold calculateProductionRate productionRateSpec
    rw [h]
  · norm_num [calculateProductionRate, getBuildingDefinition, metalMineDef]

/-- Witness for C8: the metal mine at level 2. -/
theorem calculateProductionRate_follows_spec_witness :
    getBuildingDefinition "metal_mine" = some metalMineDef ∧ (1 : ℕ) ≤ 2 ∧
      calculateProductionRate "metal_mine" 2 = productionRateSpec metalMineDef 2 :=
  ⟨rfl, by norm_num,
    calculateProductionRate_follows_spec.1 "metal_mine" metalMineDef 2 rfl (by norm_num)⟩

/-- Claim C10: a building type absent from the catalog falls back, in all
four formula functions, to a zero cost, zero production, 60 seconds of
construction time and zero energy draw — free and near-instantaneous
rather than rejected. -/
theorem unknown_type_formula_fallbacks :
    ∀ (t : String) (level : ℕ), getBuildingDefinition t = none →
      calculateUpgradeCost t level = ⟨0, 0, 0⟩ ∧
        calculateProductionRate t level = 0 ∧
        calculateConstructionTime t level = 60 ∧
        calculateEnergyConsumption t level = 0 := by
  intro t level h
  unfold calculateUpgradeCost calculateProductionRate calculateConstructionTime
    calculateEnergyConsumption
  rw [h]
  exact ⟨rfl, rfl, rfl, rfl⟩

/-- Witness for C10: the type `"warp_gate"` is not in the catalog. -/
theorem unknown_type_formula_fallbacks_witness :
    getBuildingDefinition "warp_gate" = none ∧
      calculateUpgradeCost "warp_gate" 5 = ⟨0, 0, 0⟩ ∧
        calculateProductionRate "warp_gate" 5 = 0 ∧
        calculateConstructionTime "warp_gate" 5 = 60 ∧
        calculateEnergyConsumption "warp_gate" 5 = 0 :=
  ⟨rfl, unknown_type_formula_fallbacks "warp_gate" 5 rfl⟩

/-- Claim C9: whenever the elapsed time since `lastResourceUpdate` is below
0.001 hours — negative elapsed times from clock skew included — the accrual
operation returns the planet unchanged: no balance moves and
`lastResourceUpdate` does not advance. -/
theorem updatePlanetResources_debounces (p : Planet) (bs : List Building) (now : ℚ)
    (h : (now - p.lastResourceUpdate) / (1000 * 60 * 60) < 1 / 1000) :
    updatePlanetResources p bs now = p := by
  unfold updatePlanetResources
  exact if_pos h

/-- Witness for C9: a clock that runs two hours behind the stored
`lastResourceUpdate` (negative elapsed time). -/
theorem updatePlanetResources_debounces_witness :
    ((0 : ℚ) - demoPlanet.lastResourceUpdate) / (1000 * 60 * 60) < 1 / 1000 ∧
      updatePlanetResources demoPlanet demoBuildings 0 = demoPlanet :=
  ⟨by norm_num [demoPlanet],
    updatePlanetResources_debounces demoPlanet demoBuildings 0 (by norm_num [demoPlanet])⟩

lemma energyEfficiency_eq (bs : List Building) :
    (calculateResourceRates bs).energyEfficiency =
      if 0 < (calculateResourceRates bs).energyConsumption then
        min 1 (((calculateResourceRates bs).energyProduction : ℚ) /
          ((calculateResourceRates bs).energyConsumption : ℚ))
      else 1 := rfl

/-- Claim C2: for every collection of building rows, the computed energy
efficiency is 1 when total consumption is 0 (whatever the production) and
`min 1 (production / consumption)` otherwise; every effective resource
rate is `floor(baseRate * efficiency)`, so when consumption exceeds
production each effective rate is
`floor(baseRate * production / consumption)`. -/
theorem calculateResourceRates_energy_throttle (bs : List Building) :
    ((calculateResourceRates bs).energyConsumption = 0 →
        (calculateResourceRates bs).energyEfficiency = 1) ∧
      ((calculateResourceRates bs).energyConsumption ≠ 0 →
        (calculateResourceRates bs).energyEfficiency =
          min 1 (((calculateResourceRates bs).energyProduction : ℚ) /
            ((calculateResourceRates bs).energyConsumption : ℚ))) ∧
      (calculateResourceRates bs).effectiveMetalRate =
        ⌊((calculateResourceRates bs).metalRate : ℚ) *
          (calculateResourceRates bs).energyEfficiency⌋ ∧
      (calculateResourceRates bs).effectiveCrystalRate =
        ⌊((calculateResourceRates bs).crystalRate : ℚ) *
          (calculateResourceRates bs).energyEfficiency⌋ ∧
      (calculateResourceRates bs).effectiveOxygenRate =
        ⌊((calculateResourceRates bs).oxygenRate : ℚ) *
          (calculateResourceRates bs).energyEfficiency⌋ ∧
      ((calculateResourceRates bs).energyProduction <
          (calculateResourceRates bs).energyConsumption →
        (calculateResourceRates bs).effectiveMetalRate =
          ⌊((calculateResourceRates bs).metalRate : ℚ) *
            (((calculateResourceRates bs).energyProduction : ℚ) /
              ((calculateResourceRates bs).energyConsumption : ℚ))⌋ ∧
        (calculateResourceRates bs).effectiveCrystalRate =
          ⌊((calculateResourceRates bs).crystalRate : ℚ) *
            (((calculateResourceRates bs).energyProduction : ℚ) /
              ((calculateResourceRates bs).energyConsumption : ℚ))⌋ ∧
        (calculateResourceRates bs).effectiveOxygenRate =
          ⌊((calculateResourceRates bs).oxygenRate : ℚ) *
            (((calculateResourceRates bs).energyProduction : ℚ) /
              ((calculateResourceRates bs).energyConsumption : ℚ))⌋) := by
  have hcons : 0 ≤ (calculateResourceRates bs).energyConsumption := by
    rw [(rates_eq_accum bs).2.2.2.2]; exact (ratesAccum_nonneg bs).2.2.2.2
  have hprod : 0 ≤ (calculateResourceRates bs).energyProduction := by
    rw [(rates_eq_accum bs).2.2.2.1]; exact (ratesAccum_nonneg bs).2.2.2.1
  refine ⟨?_, ?_, effectiveMetalRate_eq bs, effectiveCrystalRate_eq bs,
    effectiveOxygenRate_eq bs, ?_⟩
  · intro h0
    rw [energyEfficiency_eq, if_neg (by rw [h0]; exact lt_irrefl 0)]
  · intro hne
    rw [energyEfficiency_eq, if_pos (lt_of_le_of_ne hcons (Ne.symm hne))]
  · intro hlt
    have hcpos : 0 < (calculateResourceRates bs).energyConsumption :=
      lt_of_le_of_lt hprod hlt
    have heff : (calculateResourceRates bs).energyEfficiency =
        ((calculateResourceRates bs).energyProduction : ℚ) /
          ((calculateResourceRates bs).energyConsumption : ℚ) := by
      rw [energyEfficiency_eq, if_pos hcpos]
      refine min_eq_right ?_
      rw [div_le_one (by exact_mod_cast hcpos)]
      exact_mod_cast le_of_lt hlt
    exact ⟨by rw [effectiveMetalRate_eq, heff], by rw [effectiveCrystalRate_eq, heff],
      by rw [effectiveOxygenRate_eq, heff]⟩

lemma getDef_metal_mine : getBuildingDefinition "metal_mine" = some metalMineDef := rfl

lemma getDef_crystal_refinery :
    getBuildingDefinition "crystal_refinery" = some crystalRefineryDef := rfl

lemma getDef_oxygen_processor :
    getBuildingDefinition "oxygen_processor" = some oxygenProcessorDef := rfl

lemma getDef_energy_plant : getBuildingDefinition "energy_plant" = some energyPlantDef := rfl

lemma addProduction_metal (a : RateAccum) (production : ℤ) :
    addProduction a (some "metal") production = { a with metal := a.metal + production } := rfl

lemma addProduction_crystal (a : RateAccum) (production : ℤ) :
    addProduction a (some "crystal") production =
      { a with crystal := a.crystal + production } := rfl

lemma addProduction_oxygen (a : RateAccum) (production : ℤ) :
    addProduction a (some "oxygen") production = { a with oxygen := a.oxygen + production } := rfl

lemma addProduction_energy (a : RateAccum) (production : ℤ) :
    addProduction a (some "energy") production = { a with energy := a.energy + production } := rfl

lemma prodRate_energy_plant_1 : calculateProductionRate "energy_plant" 1 = 50 := by
  norm_num [calculateProductionRate, getDef_energy_plant, energyPlantDef]

lemma prodRate_metal_mine_2 : calculateProductionRate "metal_mine" 2 = 66 := by
  norm_num [calculateProductionRate, getDef_metal_mine, metalMineDef]

lemma prodRate_crystal_refinery_2 : calculateProductionRate "crystal_refinery" 2 = 44 := by
  norm_num [calculateProductionRate, getDef_crystal_refinery, crystalRefineryDef]

lemma prodRate_oxygen_processor_1 : calculateProductionRate "oxygen_processor" 1 = 15 := by
  norm_num [calculateProductionRate, getDef_oxygen_processor, oxygenProcessorDef]

lemma consRate_energy_plant_1 : calculateEnergyConsumption "energy_plant" 1 = 0 := by
  norm_num [calculateEnergyConsumption, getDef_energy_plant, energyPlantDef]

lemma consRate_metal_mine_2 : calculateEnergyConsumption "metal_mine" 2 = 20 := by
  norm_num [calculateEnergyConsumption, getDef_metal_mine, metalMineDef]

lemma consRate_crystal_refinery_2 : calculateEnergyConsumption "crystal_refinery" 2 = 30 := by
  norm_num [calculateEnergyConsumption, getDef_crystal_refinery, crystalRefineryDef]

lemma consRate_oxygen_processor_1 : calculateEnergyConsumption "oxygen_processor" 1 = 20 := by
  norm_num [calculateEnergyConsumption, getDef_oxygen_processor, oxygenProcessorDef]

lemma ratesAccum_demoBuildings : ratesAccum demoBuildings = ⟨86, 54, 20, 50, 70⟩ := by
  simp only [ratesAccum, demoBuildings, List.foldl_cons, List.foldl_nil, stepAccum,
    getDef_energy_plant, getDef_metal_mine, getDef_crystal_refinery, getDef_oxygen_processor,
    prodRate_energy_plant_1, prodRate_metal_mine_2, prodRate_crystal_refinery_2,
    prodRate_oxygen_processor_1, consRate_energy_plant_1, consRate_metal_mine_2,
    consRate_crystal_refinery_2, consRate_oxygen_processor_1, energyPlantDef, metalMineDef,
    crystalRefineryDef, oxygenProcessorDef, addProduction_metal, addProduction_crystal,
    addProduction_oxygen, addProduction_energy]
  norm_num

/-- Witness for C2: the empty planet (consumption 0, efficiency 1) and the
demo planet (production 50 against consumption 70, every effective rate
scaled by 5/7). -/
theorem calculateResourceRates_energy_throttle_witness :
    ((calculateResourceRates []).energyConsumption = 0 ∧
        (calculateResourceRates []).energyEfficiency = 1) ∧
      (calculateResourceRates demoBuildings).energyConsumption ≠ 0 ∧
      (calculateResourceRates demoBuildings).energyProduction <
        (calculateResourceRates demoBuildings).energyConsumption ∧
      (calculateResourceRates demoBuildings).energyEfficiency =
        min 1 (((calculateResourceRates demoBuildings).energyProduction : ℚ) /
          ((calculateResourceRates demoBuildings).energyConsumption : ℚ)) ∧
      (calculateResourceRates demoBuildings).effectiveMetalRate =
        ⌊((calculateResourceRates demoBuildings).metalRate : ℚ) *
          (((calculateResourceRates demoBuildings).energyProduction : ℚ) /
            ((calculateResourceRates demoBuildings).energyConsumption : ℚ))⌋ := by
  have h0 : (calculateResourceRates []).energyConsumption = 0 := rfl
  have hc : (calculateResourceRates demoBuildings).energyConsumption = 70 := by
    rw [(rates_eq_accum demoBuildings).2.2.2.2, ratesAccum_demoBuildings]
  have hp : (calculateResourceRates demoBuildings).energyProduction = 50 := by
    rw [(rates_eq_accum demoBuildings).2.2.2.1, ratesAccum_demoBuildings]
  have hne : (calculateResourceRates demoBuildings).energyConsumption ≠ 0 := by
    rw [hc]; norm_num
  have hlt : (calculateResourceRates demoBuildings).energyProduction <
      (calculateResourceRates demoBuildings).energyConsumption := by
    rw [hc, hp]; norm_num
  exact ⟨⟨h0, (calculateResourceRates_energy_throttle []).1 h0⟩, hne, hlt,
    (calculateResourceRates_energy_throttle demoBuildings).2.1 hne,
    ((calculateResourceRates_energy_throttle demoBuildings).2.2.2.2.2 hlt).1⟩

lemma updatePlanetResources_noop (p : Planet) (bs : List Building) (now : ℚ)
    (h : (now - p.lastResourceUpdate) / (1000 * 60 * 60) < 1 / 1000) :
    updatePlanetResources p bs now = p := by
  unfold updatePlanetResources
  exact if_pos h

/-- Claim C3: when, after accrual, any balance is strictly below the
corresponding component of the upgrade cost, the handler answers
`InsufficientResources` and the only persisted change on that path is the
accrual itself — balances are not debited, no building row is created or
flagged, and no queue entry is appended. -/
theorem upgradeBuilding_insufficient_leaves_state (s : GameState) (t : String) (now : ℚ)
    (d : BuildingDefinition) (hd : getBuildingDefinition t = some d)
    (hshort :
      (updatePlanetResources s.planet s.buildings now).metal <
          ((calculateUpgradeCost t (currentLevelOf s.buildings t + 1)).metal : ℚ) ∨
        (updatePlanetResources s.planet s.buildings now).crystal <
          ((calculateUpgradeCost t (currentLevelOf s.buildings t + 1)).crystal : ℚ) ∨
        (updatePlanetResources s.planet s.buildings now).oxygen <
          ((calculateUpgradeCost t (currentLevelOf s.buildings t + 1)).oxygen : ℚ)) :
    upgradeBuilding s t now =
      (.error .insufficientResources,
        { s with planet := updatePlanetResources s.planet s.buildings now }) := by
  unfold upgradeBuilding
  rw [hd]
  simp only
  rw [if_pos hshort]

/-- Witness for C3: a drained planet (all balances zero after a no-op
accrual) cannot afford a level-1 metal mine costing 60 metal. -/
theorem upgradeBuilding_insufficient_leaves_state_witness :
    getBuildingDefinition "metal_mine" = some metalMineDef ∧
      (updatePlanetResources poorState.planet poorState.buildings 0).metal <
        ((calculateUpgradeCost "metal_mine"
          (currentLevelOf poorState.buildings "metal_mine" + 1)).metal : ℚ) ∧
      upgradeBuilding poorState "metal_mine" 0 =
        (.error .insufficientResources,
          { poorState with planet := updatePlanetResources poorState.planet poorState.buildings 0 }) := by
  have hacc : updatePlanetResources poorState.planet poorState.buildings 0 = poorState.planet :=
    updatePlanetResources_noop _ _ _ (by norm_num [poorState])
  have hlvl : currentLevelOf poorState.buildings "metal_mine" = 0 := rfl
  have hcost : calculateUpgradeCost "metal_mine" 1 = ⟨60, 15, 0⟩ := by
    norm_num [calculateUpgradeCost, getDef_metal_mine, metalMineDef]
  have hshort : (updatePlanetResources poorState.planet poorState.buildings 0).metal <
      ((calculateUpgradeCost "metal_mine"
        (currentLevelOf poorState.buildings "metal_mine" + 1)).metal : ℚ) := by
    rw [hacc, hlvl, hcost]
    norm_num [poorState]
  exact ⟨getDef_metal_mine, hshort,
    upgradeBuilding_insufficient_leaves_state poorState "metal_mine" 0 metalMineDef
      getDef_metal_mine (Or.inl hshort)⟩

/-- Claim C1 (code divergence): the upgrade handler never consults
`isConstructing`.  On a planet whose metal mine is mid-construction (flag
set, one outstanding queue entry targeting level 2), a second upgrade
request for the same building succeeds instead of failing with an
`AlreadyConstructing` error: the cost of level 2 is debited a second time
and a duplicate queue entry targeting the same level 2 is appended. -/
theorem upgradeBuilding_accepts_second_request_while_constructing :
    (busyState.buildings.find? (fun b => b.buildingType = "metal_mine")).map
        (fun b => b.isConstructing) = some true ∧
      (upgradeBuilding busyState "metal_mine" 0).1 =
        .ok ⟨1, some 0, "metal_mine", 2, 72000, 1⟩ ∧
      (upgradeBuilding busyState "metal_mine" 0).2.queue =
        [⟨0, some 0, "metal_mine", 2, 60000, 0⟩, ⟨1, some 0, "metal_mine", 2, 72000, 1⟩] ∧
      (upgradeBuilding busyState "metal_mine" 0).2.planet.metal =
        busyState.planet.metal - 90 ∧
      (upgradeBuilding busyState "metal_mine" 0).2.planet.crystal =
        busyState.planet.crystal - 22 := by
  have hacc : updatePlanetResources busyState.planet busyState.buildings 0 =
      busyState.planet :=
    updatePlanetResources_noop _ _ _ (by norm_num [busyState])
  have hcost : calculateUpgradeCost "metal_mine" 2 = ⟨90, 22, 0⟩ := by
    norm_num [calculateUpgradeCost, getDef_metal_mine, metalMineDef]
  have hct : calculateConstructionTime "metal_mine" 2 = 72 := by
    norm_num [calculateConstructionTime, getDef_metal_mine, metalMineDef]
  have hfind : busyState.buildings.find? (fun b => b.buildingType = "metal_mine") =
      some ⟨0, "metal_mine", 0, 1, true⟩ := rfl
  have hlvl : currentLevelOf busyState.buildings "metal_mine" + 1 = 2 := rfl
  refine ⟨rfl, ?_, ?_, ?_, ?_⟩ <;>
    · unfold upgradeBuilding
      rw [getDef_metal_mine]
      simp only [hlvl, hacc, hcost, hct, hfind]
      norm_num [busyState]

lemma applyConstruction_planet (st : GameState) (c : Construction) :
    (applyConstruction st c).planet = st.planet := by
  rcases hc : c.buildingId with _ | bid <;> simp [applyConstruction, hc]

lemma applyConstruction_queue (st : GameState) (c : Construction) :
    (applyConstruction st c).queue = st.queue.filter fun q => q.id ≠ c.id := by
  rcases hc : c.buildingId with _ | bid <;> simp [applyConstruction, hc]

lemma applyConstruction_nextB_mono (st : GameState) (c : Construction) :
    st.nextBuildingId ≤ (applyConstruction st c).nextBuildingId := by
  rcases hc : c.buildingId with _ | bid <;> simp [applyConstruction, hc]

lemma foldl_applyConstruction_planet (l : List Construction) :
    ∀ st : GameState, (l.foldl applyConstruction st).planet = st.planet := by
  induction l with
  | nil => intro st; rfl
  | cons c l ih =>
    intro st
    rw [List.foldl_cons, ih, applyConstruction_planet]

lemma foldl_applyConstruction_nextB_mono (l : List Construction) :
    ∀ st : GameState, st.nextBuildingId ≤ (l.foldl applyConstruction st).nextBuildingId := by
  induction l with
  | nil => intro st; exact le_refl _
  | cons c l ih =>
    intro st
    rw [List.foldl_cons]
    exact le_trans (applyConstruction_nextB_mono st c) (ih _)

lemma foldl_applyConstruction_queue (l : List Construction) :
    ∀ st : GameState, (l.foldl applyConstruction st).queue =
      st.queue.filter fun q => l.all fun c => q.id ≠ c.id := by
  induction l with
  | nil =>
    intro st
    simp
  | cons c l ih =>
    intro st
    rw [List.foldl_cons, ih, applyConstruction_queue, List.filter_filter]
    refine List.filter_congr ?_
    intro q _
    simp [List.all_cons, Bool.and_comm]

/-- Claim C4: running the periodic resolver twice at the same instant gives
the same final state as running it once — entry deletion is the completion
marker, so the second run finds no due entries and is a no-op. -/
theorem processCompletedConstructions_idempotent (st : GameState) (now : ℚ) :
    processCompletedConstructions (processCompletedConstructions st now) now =
      processCompletedConstructions st now := by
  have hq : (processCompletedConstructions st now).queue =
      st.queue.filter fun q => (dueList st now).all fun c => q.id ≠ c.id :=
    foldl_applyConstruction_queue (dueList st now) st
  have hdue : dueList (processCompletedConstructions st now) now = [] := by
    unfold dueList
    rw [hq, List.filter_filter]
    rw [List.filter_eq_nil_iff]
    intro q hq'
    simp only [Bool.and_eq_true, List.all_eq_true, decide_eq_true_eq]
    rintro ⟨hle, hall⟩
    have hmem : q ∈ dueList st now := by
      unfold dueList
      exact List.mem_filter.mpr ⟨hq', by simpa using hle⟩
    exact (hall q hmem) rfl
  calc processCompletedConstructions (processCompletedConstructions st now) now
      = (dueList (processCompletedConstructions st now) now).foldl applyConstruction
          (processCompletedConstructions st now) := rfl
    _ = processCompletedConstructions st now := by rw [hdue]; rfl

lemma mem_dueList {st : GameState} {now : ℚ} {c : Construction} :
    c ∈ dueList st now ↔ c ∈ st.queue ∧ c.completesAt ≤ now := by
  unfold dueList
  rw [List.mem_filter]
  simp

lemma foldl_applyConstruction_keeps_update (l : List Construction) :
    ∀ (st : GameState) (bid : ℕ) (lvl : ℕ),
      bid < st.nextBuildingId →
      (∀ c ∈ l, c.buildingId = some bid → c.targetLevel = lvl) →
      (∀ b ∈ st.buildings, b.id = bid → b.level = lvl ∧ b.isConstructing = false) →
      ∀ b ∈ (l.foldl applyConstruction st).buildings, b.id = bid →
        b.level = lvl ∧ b.isConstructing = false := by
  induction l with
  | nil =>
    intro st bid lvl _ _ hP b hb hid
    exact hP b hb hid
  | cons c l ih =>
    intro st bid lvl hbound hagree hP
    rw [List.foldl_cons]
    refine ih (applyConstruction st c) bid lvl ?_ ?_ ?_
    · exact lt_of_lt_of_le hbound (applyConstruction_nextB_mono st c)
    · intro c' hc' h'
      exact hagree c' (List.mem_cons_of_mem c hc') h'
    · rcases hc : c.buildingId with _ | bid'
      · intro b hb hid
        simp only [applyConstruction, hc] at hb
        rcases List.mem_append.mp hb with hb' | hb'
        · exact hP b hb' hid
        · rcases List.mem_singleton.mp hb' with rfl
          exact absurd hid (by simp; omega)
      · intro b hb hid
        simp only [applyConstruction, hc, applyBuildingUpdate] at hb
        rcases List.mem_map.mp hb with ⟨b0, hb0, rfl⟩
        by_cases hb0id : b0.id = bid'
        · rw [if_pos hb0id]
          rw [if_pos hb0id] at hid
          have hbb : bid' = bid := by
            rw [← hb0id]
            exact hid
          have hT : c.targetLevel = lvl :=
            hagree c (List.mem_cons_self c l) (by rw [hc, hbb])
          exact ⟨hT, rfl⟩
        · rw [if_neg hb0id]
          rw [if_neg hb0id] at hid
          exact hP b0 hb0 hid

lemma foldl_applyConstruction_keeps_mem (l : List Construction) :
    ∀ (st : GameState) (b : Building), b ∈ st.buildings →
      (∀ c ∈ l, ∀ bid, c.buildingId = some bid → bid ≠ b.id) →
      b ∈ (l.foldl applyConstruction st).buildings := by
  induction l with
  | nil =>
    intro st b hb _
    exact hb
  | cons c l ih =>
    intro st b hb hno
    rw [List.foldl_cons]
    refine ih (applyConstruction st c) b ?_ ?_
    · rcases hc : c.buildingId with _ | bid'
      · simp only [applyConstruction, hc]
        exact List.mem_append_left _ hb
      · simp only [applyConstruction, hc, applyBuildingUpdate]
        have hne : ¬b.id = bid' := by
          intro h
          exact hno c (List.mem_cons_self c l) bid' hc h.symm
        have : (if b.id = bid' then
            { b with level := c.targetLevel, isConstructing := false } else b) = b :=
          if_neg hne
        exact this ▸ List.mem_map_of_mem _ hb
    · intro c' hc' bid h'
      exact hno c' (List.mem_cons_of_mem c hc') bid h'

/-- Claim C5: on a well-formed state (queue ids distinct, referenced
building ids below the fresh-id counter, entries referencing the same
building agreeing on the target level), the resolver applies every due
entry — the referenced building ends at `level = targetLevel` with
`isConstructing = false` when `buildingId` is set, a fresh building row
with those fields is created when it is not — deletes exactly the due
entries, and leaves the entries not yet due in the queue. -/
theorem processCompletedConstructions_applies_due (st : GameState) (now : ℚ)
    (hids : ∀ c ∈ st.queue, ∀ c' ∈ st.queue, c.id = c'.id → c = c')
    (hbound : ∀ c ∈ st.queue, ∀ bid, c.buildingId = some bid → bid < st.nextBuildingId)
    (hagree : ∀ c ∈ st.queue, ∀ c' ∈ st.queue, ∀ bid, c.buildingId = some bid →
        c'.buildingId = some bid → c'.targetLevel = c.targetLevel) :
    (processCompletedConstructions st now).queue =
        st.queue.filter (fun c => ¬(c.completesAt ≤ now)) ∧
      (∀ c ∈ st.queue, c.completesAt ≤ now → ∀ bid, c.buildingId = some bid →
        ∀ b ∈ (processCompletedConstructions st now).buildings, b.id = bid →
          b.level = c.targetLevel ∧ b.isConstructing = false) ∧
      (∀ c ∈ st.queue, c.completesAt ≤ now → c.buildingId = none →
        ∃ b ∈ (processCompletedConstructions st now).buildings,
          b.buildingType = c.buildingType ∧ b.level = c.targetLevel ∧
            b.isConstructing = false) := by
  refine ⟨?_, ?_, ?_⟩
  · rw [show (processCompletedConstructions st now).queue = _ from
      foldl_applyConstruction_queue (dueList st now) st]
    refine List.filter_congr ?_
    intro q hqmem
    by_cases hdue : q.completesAt ≤ now
    · have hq : q ∈ dueList st now := mem_dueList.mpr ⟨hqmem, hdue⟩
      have hL : ((dueList st now).all fun c => decide (q.id ≠ c.id)) = false := by
        simp only [List.all_eq_false]
        exact ⟨q, hq, by simp⟩
      have hR : (decide ¬(q.completesAt ≤ now)) = false := by simp [hdue]
      rw [hL, hR]
    · have hnot : ∀ c ∈ dueList st now, q.id ≠ c.id := by
        intro c hc hqc
        have hcq : c ∈ st.queue ∧ c.completesAt ≤ now := mem_dueList.mp hc
        have : q = c := hids q hqmem c hcq.1 hqc
        exact hdue (this ▸ hcq.2)
      have hL : ((dueList st now).all fun c => decide (q.id ≠ c.id)) = true := by
        simp only [List.all_eq_true, decide_eq_true_eq]
        exact hnot
      have hR : (decide ¬(q.completesAt ≤ now)) = true := by simp [hdue]
      rw [hL, hR]
  · intro c hc hdue bid hbid b hb hbidb
    have hcmem : c ∈ dueList st now := mem_dueList.mpr ⟨hc, hdue⟩
    obtain ⟨l1, l2, hsplit⟩ := List.append_of_mem hcmem
    have hrun : processCompletedConstructions st now =
        l2.foldl applyConstruction (applyConstruction (l1.foldl applyConstruction st) c) := by
      unfold processCompletedConstructions
      rw [hsplit, List.foldl_append, List.foldl_cons]
    set st1 := l1.foldl applyConstruction st with hst1
    have hbound1 : bid < (applyConstruction st1 c).nextBuildingId := by
      refine lt_of_lt_of_le (lt_of_lt_of_le (hbound c hc bid hbid) ?_)
        (applyConstruction_nextB_mono st1 c)
      exact foldl_applyConstruction_nextB_mono l1 st
    have hmid : ∀ b' ∈ (applyConstruction st1 c).buildings, b'.id = bid →
        b'.level = c.targetLevel ∧ b'.isConstructing = false := by
      intro b' hb' hid'
      simp only [applyConstruction, hbid, applyBuildingUpdate] at hb'
      rcases List.mem_map.mp hb' with ⟨b0, _, rfl⟩
      by_cases h0 : b0.id = bid
      · rw [if_pos h0]
        exact ⟨rfl, rfl⟩
      · rw [if_neg h0] at hid' ⊢
        exact absurd hid' h0
    have hl2 : ∀ c' ∈ l2, c'.buildingId = some bid → c'.targetLevel = c.targetLevel := by
      intro c' hc' h'
      have : c' ∈ dueList st now := by
        rw [hsplit]
        exact List.mem_append_right _ (List.mem_cons_of_mem c hc')
      exact hagree c hc c' (mem_dueList.mp this).1 bid hbid h'
    rw [hrun] at hb
    exact foldl_applyConstruction_keeps_update l2 (applyConstruction st1 c) bid
      c.targetLevel hbound1 hl2 hmid b hb hbidb
  · intro c hc hdue hnone
    have hcmem : c ∈ dueList st now := mem_dueList.mpr ⟨hc, hdue⟩
    obtain ⟨l1, l2, hsplit⟩ := List.append_of_mem hcmem
    have hrun : processCompletedConstructions st now =
        l2.foldl applyConstruction (applyConstruction (l1.foldl applyConstruction st) c) := by
      unfold processCompletedConstructions
      rw [hsplit, List.foldl_append, List.foldl_cons]
    set st1 := l1.foldl applyConstruction st with hst1
    set nb : Building := ⟨st1.nextBuildingId, c.buildingType, 0, c.targetLevel, false⟩ with hnb
    have hmem1 : nb ∈ (applyConstruction st1 c).buildings := by
      simp only [applyConstruction, hnone]
      exact List.mem_append_right _ (List.mem_singleton.mpr rfl)
    have hkeep : nb ∈ (l2.foldl applyConstruction (applyConstruction st1 c)).buildings := by
      refine foldl_applyConstruction_keeps_mem l2 (applyConstruction st1 c) nb hmem1 ?_
      intro c' hc' bid h' hbad
      have hc'q : c' ∈ st.queue := by
        have : c' ∈ dueList st now := by
          rw [hsplit]
          exact List.mem_append_right _ (List.mem_cons_of_mem c hc')
        exact (mem_dueList.mp this).1
      have hlt : bid < st.nextBuildingId := hbound c' hc'q bid h'
      have hle : st.nextBuildingId ≤ st1.nextBuildingId :=
        foldl_applyConstruction_nextB_mono l1 st
      rw [hbad] at hlt
      exact absurd hlt (not_lt_of_le (le_trans hle (le_refl _)))
    rw [hrun]
    exact ⟨nb, hkeep, rfl, rfl, rfl⟩

/-- Witness for C5: resolving `resolveState` at time 100000 applies both
due entries (metal mine to level 2, fleet dock created at level 1) and
keeps only the entry that is not yet due. -/
theorem processCompletedConstructions_applies_due_witness :
    (processCompletedConstructions resolveState 100000).queue =
        resolveState.queue.filter (fun c => ¬(c.completesAt ≤ (100000 : ℚ))) ∧
      (∀ b ∈ (processCompletedConstructions resolveState 100000).buildings, b.id = 0 →
        b.level = 2 ∧ b.isConstructing = false) ∧
      ∃ b ∈ (processCompletedConstructions resolveState 100000).buildings,
        b.buildingType = "fleet_dock" ∧ b.level = 1 ∧ b.isConstructing = false := by
  have hids : ∀ c ∈ resolveState.queue, ∀ c' ∈ resolveState.queue, c.id = c'.id → c = c' := by
    intro c hc c' hc' h
    simp only [resolveState] at hc hc'
    fin_cases hc <;> fin_cases hc' <;> simp_all
  have hbound : ∀ c ∈ resolveState.queue, ∀ bid, c.buildingId = some bid →
      bid < resolveState.nextBuildingId := by
    intro c hc bid h
    simp only [resolveState] at hc h ⊢
    fin_cases hc <;> simp_all
  have hagree : ∀ c ∈ resolveState.queue, ∀ c' ∈ resolveState.queue, ∀ bid,
      c.buildingId = some bid → c'.buildingId = some bid →
        c'.targetLevel = c.targetLevel := by
    intro c hc c' hc' bid h h'
    simp only [resolveState] at hc hc'
    fin_cases hc <;> fin_cases hc' <;> simp_all
  have H := processCompletedConstructions_applies_due resolveState 100000 hids hbound hagree
  refine ⟨H.1, ?_, ?_⟩
  · intro b hb hid
    exact H.2.1 ⟨0, some 0, "metal_mine", 2, 60000, 0⟩ (by simp [resolveState])
      (by norm_num) 0 rfl b hb hid
  · exact H.2.2 ⟨1, none, "fleet_dock", 1, 50000, 1⟩ (by simp [resolveState])
      (by norm_num) rfl

lemma upgradeBuilding_none_eq {s : GameState} {t : String} {now : ℚ}
    (hd : getBuildingDefinition t = none) :
    upgradeBuilding s t now = (.error .invalidBuildingType, s) := by
  unfold upgradeBuilding
  rw [hd]

lemma upgradeBuilding_insufficient_eq {s : GameState} {t : String} {now : ℚ}
    {d : BuildingDefinition} (hd : getBuildingDefinition t = some d)
    (hc : (updatePlanetResources s.planet s.buildings now).metal <
          ((calculateUpgradeCost t (currentLevelOf s.buildings t + 1)).metal : ℚ) ∨
        (updatePlanetResources s.planet s.buildings now).crystal <
          ((calculateUpgradeCost t (currentLevelOf s.buildings t + 1)).crystal : ℚ) ∨
        (updatePlanetResources s.planet s.buildings now).oxygen <
          ((calculateUpgradeCost t (currentLevelOf s.buildings t + 1)).oxygen : ℚ)) :
    upgradeBuilding s t now =
      (.error .insufficientResources,
        { s with planet := updatePlanetResources s.planet s.buildings now }) := by
  unfold upgradeBuilding
  rw [hd]
  simp only
  rw [if_pos hc]

lemma upgradeBuilding_success_eq {s : GameState} {t : String} {now : ℚ}
    {d : BuildingDefinition} (hd : getBuildingDefinition t = some d)
    (hc : ¬((updatePlanetResources s.planet s.buildings now).metal <
          ((calculateUpgradeCost t (currentLevelOf s.buildings t + 1)).metal : ℚ) ∨
        (updatePlanetResources s.planet s.buildings now).crystal <
          ((calculateUpgradeCost t (currentLevelOf s.buildings t + 1)).crystal : ℚ) ∨
        (updatePlanetResources s.planet s.buildings now).oxygen <
          ((calculateUpgradeCost t (currentLevelOf s.buildings t + 1)).oxygen : ℚ))) :
    upgradeBuilding s t now = (.ok (upgradeItem s t now), upgradeResultState s t now) := by
  unfold upgradeBuilding
  rw [hd]
  simp only
  rw [if_neg hc]
  unfold upgradeResultState upgradeItem upgradeTarget debitedPlanet
  cases hfind : s.buildings.find? (fun b => b.buildingType = t) <;>
    simp only [hfind]

lemma updatePlanetResources_le (p : Planet) (bs : List Building) (now : ℚ) :
    p.metal ≤ (updatePlanetResources p bs now).metal ∧
      p.crystal ≤ (updatePlanetResources p bs now).crystal ∧
      p.oxygen ≤ (updatePlanetResources p bs now).oxygen := by
  obtain ⟨e1, e2, e3⟩ := effectiveRates_nonneg bs
  unfold updatePlanetResources
  dsimp only
  split_ifs with h
  · exact ⟨le_refl _, le_refl _, le_refl _⟩
  · push_neg at h
    have hh : (0 : ℚ) ≤ (now - p.lastResourceUpdate) / (1000 * 60 * 60) :=
      le_trans (by norm_num) h
    refine ⟨?_, ?_, ?_⟩ <;>
      · dsimp only
        refine le_add_of_nonneg_right (mul_nonneg ?_ hh)
        exact_mod_cast ‹_›

lemma upgradeBuilding_planet_nonneg (s : GameState) (t : String) (now : ℚ)
    (h : PlanetNonneg s.planet) : PlanetNonneg (upgradeBuilding s t now).2.planet := by
  obtain ⟨h1, h2, h3⟩ := h
  obtain ⟨a1, a2, a3⟩ := updatePlanetResources_le s.planet s.buildings now
  cases hd : getBuildingDefinition t with
  | none =>
    rw [upgradeBuilding_none_eq hd]
    exact ⟨h1, h2, h3⟩
  | some d =>
    by_cases hc : (updatePlanetResources s.planet s.buildings now).metal <
          ((calculateUpgradeCost t (currentLevelOf s.buildings t + 1)).metal : ℚ) ∨
        (updatePlanetResources s.planet s.buildings now).crystal <
          ((calculateUpgradeCost t (currentLevelOf s.buildings t + 1)).crystal : ℚ) ∨
        (updatePlanetResources s.planet s.buildings now).oxygen <
          ((calculateUpgradeCost t (currentLevelOf s.buildings t + 1)).oxygen : ℚ)
    · rw [upgradeBuilding_insufficient_eq hd hc]
      exact ⟨le_trans h1 a1, le_trans h2 a2, le_trans h3 a3⟩
    · rw [upgradeBuilding_success_eq hd hc]
      push_neg at hc
      obtain ⟨g1, g2, g3⟩ := hc
      unfold upgradeResultState debitedPlanet
      refine ⟨?_, ?_, ?_⟩ <;> dsimp only <;> linarith

lemma stepOp_planet_nonneg (s : GameState) (op : Op) (h : PlanetNonneg s.planet) :
    PlanetNonneg (stepOp s op).planet := by
  cases op with
  | accrue now =>
    obtain ⟨h1, h2, h3⟩ := h
    obtain ⟨a1, a2, a3⟩ := updatePlanetResources_le s.planet s.buildings now
    exact ⟨le_trans h1 a1, le_trans h2 a2, le_trans h3 a3⟩
  | upgrade t now => exact upgradeBuilding_planet_nonneg s t now h
  | resolve now =>
    have hpl : (processCompletedConstructions s now).planet = s.planet :=
      foldl_applyConstruction_planet (dueList s now) s
    show PlanetNonneg (processCompletedConstructions s now).planet
    rw [hpl]
    exact h

lemma runOps_planet_nonneg (ops : List Op) :
    ∀ s : GameState, PlanetNonneg s.planet → PlanetNonneg (runOps s ops).planet := by
  induction ops with
  | nil => intro s h; exact h
  | cons op rest ih =>
    intro s h
    exact ih (stepOp s op) (stepOp_planet_nonneg s op h)

lemma stepOp_conserves (s : GameState) (op : Op)
    (h : opNoAccrual s.planet.lastResourceUpdate op) :
    (stepOp s op).planet.lastResourceUpdate = s.planet.lastResourceUpdate ∧
      (stepOp s op).planet.metal = s.planet.metal - (opSpend s op).1 ∧
      (stepOp s op).planet.crystal = s.planet.crystal - (opSpend s op).2.1 ∧
      (stepOp s op).planet.oxygen = s.planet.oxygen - (opSpend s op).2.2 := by
  cases op with
  | accrue now => exact h.elim
  | resolve now =>
    have hpl : (processCompletedConstructions s now).planet = s.planet :=
      foldl_applyConstruction_planet (dueList s now) s
    refine ⟨?_, ?_, ?_, ?_⟩ <;> simp [stepOp, hpl, opSpend]
  | upgrade t now =>
    have hacc : updatePlanetResources s.planet s.buildings now = s.planet :=
      updatePlanetResources_noop _ _ _ h
    cases hd : getBuildingDefinition t with
    | none =>
      have he := @upgradeBuilding_none_eq s t now hd
      refine ⟨?_, ?_, ?_, ?_⟩ <;> simp [stepOp, opSpend, he]
    | some d =>
      by_cases hc : (updatePlanetResources s.planet s.buildings now).metal <
            ((calculateUpgradeCost t (currentLevelOf s.buildings t + 1)).metal : ℚ) ∨
          (updatePlanetResources s.planet s.buildings now).crystal <
            ((calculateUpgradeCost t (currentLevelOf s.buildings t + 1)).crystal : ℚ) ∨
          (updatePlanetResources s.planet s.buildings now).oxygen <
            ((calculateUpgradeCost t (currentLevelOf s.buildings t + 1)).oxygen : ℚ)
      · have he := upgradeBuilding_insufficient_eq hd hc
        refine ⟨?_, ?_, ?_, ?_⟩ <;> simp [stepOp, opSpend, he, hacc]
      · have he := upgradeBuilding_success_eq hd hc
        refine ⟨?_, ?_, ?_, ?_⟩ <;>
          simp [stepOp, opSpend, he, upgradeResultState, debitedPlanet, hacc]

lemma runOps_conserves (ops : List Op) :
    ∀ s : GameState, (∀ op ∈ ops, opNoAccrual s.planet.lastResourceUpdate op) →
      (runOps s ops).planet.lastResourceUpdate = s.planet.lastResourceUpdate ∧
        (runOps s ops).planet.metal = s.planet.metal - (totalSpend s ops).1 ∧
        (runOps s ops).planet.crystal = s.planet.crystal - (totalSpend s ops).2.1 ∧
        (runOps s ops).planet.oxygen = s.planet.oxygen - (totalSpend s ops).2.2 := by
  induction ops with
  | nil =>
    intro s _
    refine ⟨rfl, ?_, ?_, ?_⟩ <;> simp [runOps, totalSpend]
  | cons op rest ih =>
    intro s hops
    have h0 := hops op (List.mem_cons_self op rest)
    have hstep := stepOp_conserves s op h0
    have hrest : ∀ op' ∈ rest, opNoAccrual (stepOp s op).planet.lastResourceUpdate op' := by
      intro op' hop'
      rw [hstep.1]
      exact hops op' (List.mem_cons_of_mem op hop')
    have hih := ih (stepOp s op) hrest
    have hrun : runOps s (op :: rest) = runOps (stepOp s op) rest := rfl
    have hts : totalSpend s (op :: rest) =
        ((opSpend s op).1 + (totalSpend (stepOp s op) rest).1,
          (opSpend s op).2.1 + (totalSpend (stepOp s op) rest).2.1,
          (opSpend s op).2.2 + (totalSpend (stepOp s op) rest).2.2) := rfl
    rw [hrun, hts]
    refine ⟨by rw [hih.1, hstep.1], ?_, ?_, ?_⟩
    · rw [hih.2.1, hstep.2.1]; dsimp only; ring
    · rw [hih.2.2.1, hstep.2.2.1]; dsimp only; ring
    · rw [hih.2.2.2, hstep.2.2.2]; dsimp only; ring

/-- Claim C6: starting from non-negative balances, no request sequence of
accruals, upgrade requests and resolver ticks ever drives a balance
negative; accrual never decreases a balance; and across a sequence that
performs no accrual the planet's balances drop by exactly the summed costs
of the successful upgrade requests. -/
theorem runOps_keeps_balances_nonneg_and_conserves (s : GameState) (ops : List Op) :
    (PlanetNonneg s.planet → PlanetNonneg (runOps s ops).planet) ∧
      (∀ now : ℚ, s.planet.metal ≤ (updatePlanetResources s.planet s.buildings now).metal ∧
        s.planet.crystal ≤ (updatePlanetResources s.planet s.buildings now).crystal ∧
        s.planet.oxygen ≤ (updatePlanetResources s.planet s.buildings now).oxygen) ∧
      ((∀ op ∈ ops, opNoAccrual s.planet.lastResourceUpdate op) →
        (runOps s ops).planet.metal = s.planet.metal - (totalSpend s ops).1 ∧
        (runOps s ops).planet.crystal = s.planet.crystal - (totalSpend s ops).2.1 ∧
        (runOps s ops).planet.oxygen = s.planet.oxygen - (totalSpend s ops).2.2) :=
  ⟨runOps_planet_nonneg ops s,
    fun now => updatePlanetResources_le s.planet s.buildings now,
    fun h => (runOps_conserves ops s h).2⟩

/-- Witness for C6: running `demoOps` from `richState`. -/
theorem runOps_keeps_balances_nonneg_and_conserves_witness :
    PlanetNonneg richState.planet ∧
      (∀ op ∈ demoOps, opNoAccrual richState.planet.lastResourceUpdate op) ∧
      PlanetNonneg (runOps richState demoOps).planet ∧
      (runOps richState demoOps).planet.metal =
        richState.planet.metal - (totalSpend richState demoOps).1 := by
  have h1 : PlanetNonneg richState.planet := by
    refine ⟨?_, ?_, ?_⟩ <;> norm_num [richState]
  have h2 : ∀ op ∈ demoOps, opNoAccrual richState.planet.lastResourceUpdate op := by
    intro op hop
    simp only [demoOps] at hop
    rcases List.mem_cons.mp hop with rfl | hop
    · show ((0 : ℚ) - richState.planet.lastResourceUpdate) / (1000 * 60 * 60) < 1 / 1000
      norm_num [richState]
    · rcases List.mem_cons.mp hop with rfl | hop
      · trivial
      · exact absurd hop (List.not_mem_nil _)
  exact ⟨h1, h2,
    (runOps_keeps_balances_nonneg_and_conserves richState demoOps).1 h1,
    ((runOps_keeps_balances_nonneg_and_conserves richState demoOps).2.2 h2).1⟩

end Galaxy
